import Mathlib

/-
Verification of computeSales.py: a program that loads a JSON price
catalogue and a JSON sales record, builds a title-to-price lookup table,
folds the sale records into a total cost while printing diagnostics for
malformed or unmatched records, and reports the total.

The embedding follows the Python source closely:
  - JSON values are modelled by the inductive type Json, with numbers as
    exact rationals.
  - Uncaught Python exceptions (TypeError from coercing a list with
    float, from an unhashable dict key, or from multiplying a
    non-numeric price; AttributeError from calling .get on a non-dict)
    are modelled with Except PyExc.
  - Python dict keys compare by value equality where True, 1 and 1.0
    coincide; the type KeyN is the normal form of a hashable value under
    that equivalence, and arrays or objects used as keys (unhashable in
    Python) raise TypeError.
  - The float builtin applied to a string is modelled by a parser for
    the plain decimal subset of the Python float grammar (optional
    surrounding whitespace, optional sign, digits with an optional
    fractional part).
  - main is modelled over an abstract filesystem assigning a read
    outcome to each filename, and returns an exit code together with the
    trace of load, print and write events it performs.
-/

namespace ComputeSales

/-- JSON values as produced by the json module: null, booleans, numbers
(modelled as exact rationals), strings, arrays and objects. -/
inductive Json where
  | null : Json
  | bool (b : Bool) : Json
  | num (q : ℚ) : Json
  | str (s : String) : Json
  | arr (elems : List Json) : Json
  | obj (fields : List (String × Json)) : Json

/-- Python exception classes that the modelled code can raise or catch. -/
inductive PyExc where
  | typeError : PyExc
  | valueError : PyExc
  | attributeError : PyExc
deriving DecidableEq

/-- Console diagnostics printed by the program, one constructor per print
site in computeSales.py. -/
inductive Diag where
  | usage : Diag
  | fileNotFound (filename : String) : Diag
  | invalidJson (filename : String) : Diag
  | readError (filename : String) : Diag
  | invalidRecord (sale : Json) : Diag
  | invalidQuantity (product quantity : Json) : Diag
  | missingProduct (product : Json) : Diag
  | report (total : ℚ) : Diag
  | writeError : Diag

/-- Normal form of a hashable Python value used as a dict key. Python dict
lookup identifies True with 1 and 1.0, so booleans normalise to numbers. -/
inductive KeyN where
  | null : KeyN
  | num (q : ℚ) : KeyN
  | str (s : String) : KeyN
deriving DecidableEq

/-- Python truthiness of a JSON value: None, False, 0, the empty string,
the empty list and the empty dict are falsy. -/
def jtruthy : Json → Bool
  | .null => false
  | .bool b => b
  | .num q => decide (q ≠ 0)
  | .str s => decide (s ≠ "")
  | .arr l => !l.isEmpty
  | .obj m => !m.isEmpty

/-- Whether a JSON value is null (Python None). -/
def isNull : Json → Bool
  | .null => true
  | _ => false

/-- Scalar JSON values: everything except arrays and objects. -/
def scalarJson : Json → Bool
  | .arr _ => false
  | .obj _ => false
  | _ => true

/-- Key normalisation: hashable values map to their key normal form,
arrays and objects (unhashable in Python) map to none. -/
def pyKeyNorm : Json → Option KeyN
  | .null => some KeyN.null
  | .bool b => some (KeyN.num (if b then 1 else 0))
  | .num q => some (KeyN.num q)
  | .str s => some (KeyN.str s)
  | .arr _ => none
  | .obj _ => none

/-- Field lookup in a parsed JSON object, with the last binding winning
(json.load keeps the last occurrence of a duplicated key) and null for a
missing field, matching dict.get with its default of None. -/
def objGet (m : List (String × Json)) (k : String) : Json :=
  m.foldl (fun acc e => if e.1 = k then e.2 else acc) Json.null

/-- sale.get(k) or product.get(k): on a parsed JSON object this is field
lookup defaulting to None; on any other value .get raises AttributeError. -/
def getField : Json → String → Except PyExc Json
  | .obj m, k => .ok (objGet m k)
  | _, _ => .error PyExc.attributeError

/-- Python dict assignment d[k] = v on an association list with normalised
keys: overwrite the value of an existing equal key, else append. -/
def dictSet : List (KeyN × Json) → KeyN → Json → List (KeyN × Json)
  | [], k, v => [(k, v)]
  | e :: d, k, v => if e.1 = k then (e.1, v) :: d else e :: dictSet d k v

/-- Python dict membership k in d over normalised keys. -/
def dictMem : List (KeyN × Json) → KeyN → Bool
  | [], _ => false
  | e :: d, k => e.1 = k || dictMem d k

/-- Python dict lookup d[k] over normalised keys. -/
def dictGet : List (KeyN × Json) → KeyN → Option Json
  | [], _ => none
  | e :: d, k => if e.1 = k then some e.2 else dictGet d k

/-- Strip leading and trailing whitespace, as float() does to its string
argument. -/
def trimChars (cs : List Char) : List Char :=
  ((cs.dropWhile Char.isWhitespace).reverse.dropWhile Char.isWhitespace).reverse

/-- Numeric value of a list of decimal digit characters. -/
def digitsVal (cs : List Char) : Nat :=
  cs.foldl (fun a c => 10 * a + (c.toNat - 48)) 0

/-- Value of a fractional digit string: digits divided by 10 ^ length. -/
def fracVal (cs : List Char) : ℚ :=
  (digitsVal cs : ℚ) / ((10 : ℚ) ^ cs.length)

/-- Unsigned decimal literal: digits with an optional dot and fractional
digits, at least one digit overall. -/
def parseUnsignedFloat (cs : List Char) : Option ℚ :=
  let ip := cs.takeWhile Char.isDigit
  let rest := cs.dropWhile Char.isDigit
  match rest with
  | [] => if ip.isEmpty then none else some (digitsVal ip : ℚ)
  | '.' :: fp =>
    if fp.all Char.isDigit && (!ip.isEmpty || !fp.isEmpty) then
      some ((digitsVal ip : ℚ) + fracVal fp)
    else none
  | _ => none

/-- float(s) for a string s: strip whitespace, optional sign, plain
decimal literal; none models ValueError. -/
def pyParseFloat (s : String) : Option ℚ :=
  match trimChars s.data with
  | [] => none
  | '+' :: cs => parseUnsignedFloat cs
  | '-' :: cs => (parseUnsignedFloat cs).map (fun q => -q)
  | cs => parseUnsignedFloat cs

/-- float(x) on a JSON value: numbers pass through, booleans coerce to 0
or 1, strings are parsed (ValueError on failure), and None, arrays and
objects raise TypeError. -/
def pyFloat : Json → Except PyExc ℚ
  | .null => .error PyExc.typeError
  | .bool b => .ok (if b then 1 else 0)
  | .num q => .ok q
  | .str s =>
    match pyParseFloat s with
    | some q => .ok q
    | none => .error PyExc.valueError
  | .arr _ => .error PyExc.typeError
  | .obj _ => .error PyExc.typeError

/-- price * quantity where quantity is already a float: numeric or boolean
prices multiply, any other price raises TypeError. -/
def pyMulFloat : Json → ℚ → Except PyExc ℚ
  | .num p, q => .ok (p * q)
  | .bool b, q => .ok ((if b then 1 else 0) * q)
  | _, _ => .error PyExc.typeError

/-- Python iteration over a JSON value: lists yield their elements,
strings their characters, dicts their keys; other values raise TypeError. -/
def pyIter : Json → Except PyExc (List Json)
  | .arr l => .ok l
  | .str s => .ok (s.data.map (fun c => Json.str (String.mk [c])))
  | .obj m => .ok (m.map (fun e => Json.str e.1))
  | _ => .error PyExc.typeError

/-- The loop body state of create_price_catalogue: fold the remaining
product elements into the catalogue accumulated so far. Unhashable truthy
titles raise TypeError at the dict assignment. -/
def create_price_catalogue_from (catalogue : List (KeyN × Json)) :
    List Json → Except PyExc (List (KeyN × Json))
  | [] => .ok catalogue
  | product :: rest =>
    match getField product "title" with
    | .error e => .error e
    | .ok title =>
      match getField product "price" with
      | .error e => .error e
      | .ok price =>
        if jtruthy title && !(isNull price) then
          match pyKeyNorm title with
          | some k => create_price_catalogue_from (dictSet catalogue k price) rest
          | none => .error PyExc.typeError
        else
          create_price_catalogue_from catalogue rest

/-- create_price_catalogue (computeSales.py lines 39 to 50): build the
title-to-price dict, keeping elements with a truthy title and a price
that is not None. -/
def create_price_catalogue (product_list : List Json) :
    Except PyExc (List (KeyN × Json)) :=
  create_price_catalogue_from [] product_list

/-- The body of the aggregation loop after the two .get calls succeeded
(computeSales.py lines 62 to 92): validate, coerce the quantity with
float catching only ValueError, then look the product up in the
catalogue and accumulate price * quantity. -/
def processSaleChecked (catalogue : List (KeyN × Json)) (total : ℚ)
    (diags : List Diag) (sale product_name quantity : Json) :
    Except PyExc (ℚ × List Diag) :=
  if !(jtruthy product_name) || isNull quantity then
    .ok (total, diags ++ [Diag.invalidRecord sale])
  else
    match pyFloat quantity with
    | .error PyExc.valueError =>
      .ok (total, diags ++ [Diag.invalidQuantity product_name quantity])
    | .error e => .error e
    | .ok q =>
      match pyKeyNorm product_name with
      | none => .error PyExc.typeError
      | some k =>
        match dictGet catalogue k with
        | some price =>
          match pyMulFloat price q with
          | .error e => .error e
          | .ok cost => .ok (total + cost, diags)
        | none => .ok (total, diags ++ [Diag.missingProduct product_name])

/-- One iteration of the aggregation loop: sale.get on a non-dict record
raises AttributeError, otherwise hand over to the checked body. -/
def processSale (catalogue : List (KeyN × Json)) (total : ℚ)
    (diags : List Diag) (sale : Json) : Except PyExc (ℚ × List Diag) :=
  match getField sale "Product" with
  | .error e => .error e
  | .ok product_name =>
    match getField sale "Quantity" with
    | .error e => .error e
    | .ok quantity =>
      processSaleChecked catalogue total diags sale product_name quantity

/-- The aggregation loop from a given accumulator state. -/
def compute_total_sales_from (catalogue : List (KeyN × Json)) (total : ℚ)
    (diags : List Diag) : List Json → Except PyExc (ℚ × List Diag)
  | [] => .ok (total, diags)
  | sale :: rest =>
    match processSale catalogue total diags sale with
    | .error e => .error e
    | .ok (t, ds) => compute_total_sales_from catalogue t ds rest

/-- compute_total_sales (computeSales.py lines 53 to 94): fold the sale
records into a total cost starting from 0.0, collecting the printed
diagnostics. -/
def compute_total_sales (price_catalogue : List (KeyN × Json))
    (sales_record : List Json) : Except PyExc (ℚ × List Diag) :=
  compute_total_sales_from price_catalogue 0 [] sales_record

/-- Outcome of opening and json-parsing one file when the exception
raised, if any, is one of the classes the except clauses of
load_json_file name: success, FileNotFoundError, JSONDecodeError, or
another OSError or TypeError during the read. ReadOutcomeFull below
extends this with the exceptions no handler matches. -/
inductive ReadOutcome where
  | ok (data : Json) : ReadOutcome
  | fileNotFound : ReadOutcome
  | jsonDecodeError : ReadOutcome
  | osError : ReadOutcome
  | typeError : ReadOutcome

/-- load_json_file (computeSales.py lines 14 to 36) over an abstract
filesystem restricted to handled outcomes: return the parsed data, or
None plus one diagnostic on each handled failure. This is the fragment
of load_json_file_full on which the loader returns instead of raising. -/
def load_json_file (fs : String → ReadOutcome) (filename : String) :
    Option Json × List Diag :=
  match fs filename with
  | .ok data => (some data, [])
  | .fileNotFound => (none, [Diag.fileNotFound filename])
  | .jsonDecodeError => (none, [Diag.invalidJson filename])
  | .osError => (none, [Diag.readError filename])
  | .typeError => (none, [Diag.readError filename])

/-- Full outcome of opening and json-parsing one file: either one of the
outcome classes that load_json_file handles, or an exception outside
those classes, such as UnicodeDecodeError raised while reading non-UTF-8
file content (a ValueError that is not a JSONDecodeError, so no except
clause matches it), or the ValueError that open raises for a path with
an embedded NUL byte. -/
inductive ReadOutcomeFull where
  | handled (r : ReadOutcome) : ReadOutcomeFull
  | uncaught (e : PyExc) : ReadOutcomeFull

/-- load_json_file over the full outcome model: the try block at lines
19 to 22 is guarded only by except clauses for FileNotFoundError,
JSONDecodeError, OSError and TypeError, so any other exception raised
while opening, reading or decoding the file propagates to the caller;
on the handled outcomes it behaves as load_json_file. -/
def load_json_file_full (fs : String → ReadOutcomeFull) (filename : String) :
    Except PyExc (Option Json × List Diag) :=
  match fs filename with
  | .handled (ReadOutcome.ok data) => .ok (some data, [])
  | .handled ReadOutcome.fileNotFound => .ok (none, [Diag.fileNotFound filename])
  | .handled ReadOutcome.jsonDecodeError => .ok (none, [Diag.invalidJson filename])
  | .handled ReadOutcome.osError => .ok (none, [Diag.readError filename])
  | .handled ReadOutcome.typeError => .ok (none, [Diag.readError filename])
  | .uncaught e => .error e

/-- The processing stage of main (computeSales.py lines 122 to 123):
iterate the loaded product list, build the catalogue, iterate the loaded
sales record and aggregate. Any uncaught exception propagates. -/
def pipeline (product_list sales_record : Json) :
    Except PyExc (ℚ × List Diag) :=
  match pyIter product_list with
  | .error e => .error e
  | .ok pl =>
    match create_price_catalogue pl with
    | .error e => .error e
    | .ok catalogue =>
      match pyIter sales_record with
      | .error e => .error e
      | .ok sr => compute_total_sales catalogue sr

/-- Observable actions of one run of main. -/
inductive Event where
  | loadFile (filename : String) : Event
  | print (d : Diag) : Event
  | writeResults (total : ℚ) : Event

/-- Result of one run of main: the process exit code and the trace of
observable actions. -/
structure MainResult where
  exitCode : Nat
  events : List Event

/-- main (computeSales.py lines 97 to 147) over an argument vector, an
abstract filesystem and a flag telling whether writing SalesResults.txt
succeeds. Wrong argument count prints usage and exits 1 with no file
access; both files are loaded unconditionally; a missing input exits 1;
an uncaught exception from the processing stage terminates the process
with exit code 1; otherwise the report is printed, the write is
attempted, a write failure only prints a diagnostic, and the exit code
is 0. -/
def main (argv : List String) (fs : String → ReadOutcome)
    (writeOk : Bool) : MainResult :=
  match argv with
  | [_, price_file, sales_file] =>
    let pres := load_json_file fs price_file
    let sres := load_json_file fs sales_file
    let loadEvents :=
      (Event.loadFile price_file :: pres.2.map Event.print) ++
      (Event.loadFile sales_file :: sres.2.map Event.print)
    match pres.1, sres.1 with
    | some product_list, some sales_record =>
      match pipeline product_list sales_record with
      | .error _ => ⟨1, loadEvents⟩
      | .ok (total_cost, diags) =>
        let pre := loadEvents ++ diags.map Event.print ++
          [Event.print (Diag.report total_cost)]
        if writeOk then ⟨0, pre ++ [Event.writeResults total_cost]⟩
        else ⟨0, pre ++ [Event.print Diag.writeError]⟩
    | _, _ => ⟨1, loadEvents⟩
  | _ => ⟨1, [Event.print Diag.usage]⟩

/-- A sale record object with the two fields the aggregator reads. -/
def mkSale (product quantity : Json) : Json :=
  Json.obj [("Product", product), ("Quantity", quantity)]

/-- A catalogue of the shape the data model describes: string titles
mapped to numeric prices, embedded as a Python dict. -/
def numCatalogue : List (String × ℚ) → List (KeyN × Json)
  | [] => []
  | e :: rest => (KeyN.str e.1, Json.num e.2) :: numCatalogue rest

/-- Spec-side title lookup in a numeric catalogue, first binding wins. -/
def specFind : List (String × ℚ) → String → Option ℚ
  | [], _ => none
  | e :: rest, s => if e.1 = s then some e.2 else specFind rest s

/-- Spec-side lookup of a product name in a numeric catalogue: only a
string product can match a title. -/
def specLookup (c : List (String × ℚ)) : Json → Option ℚ
  | .str s => specFind c s
  | _ => none

/-- Spec-side coercion of a quantity to a float: the quantities that
float() accepts without raising, none for None and unparsable strings. -/
def coercedQty : Json → Option ℚ
  | .null => none
  | .bool b => some (if b then 1 else 0)
  | .num q => some q
  | .str s => pyParseFloat s
  | .arr _ => none
  | .obj _ => none

/-- Spec-side contribution of one sale given its extracted Product and
Quantity values, following the claim: the catalogue price times the
coerced quantity when the product is truthy and present and the quantity
coerces, zero otherwise. -/
def specContribQ (c : List (String × ℚ)) (pn qty : Json) : ℚ :=
  match (if jtruthy pn then specLookup c pn else none), coercedQty qty with
  | some price, some q => price * q
  | _, _ => 0

/-- Spec-side contribution of one sale record to the total. -/
def specContribution (c : List (String × ℚ)) : Json → ℚ
  | .obj m => specContribQ c (objGet m "Product") (objGet m "Quantity")
  | _ => 0

/-- Spec-side total: the sum of the contributions of the sale records. -/
def specTotal (c : List (String × ℚ)) : List Json → ℚ
  | [] => 0
  | sale :: rest => specContribution c sale + specTotal c rest

/-- The total returned by the aggregator, when it returns. -/
def totalResult (r : Except PyExc (ℚ × List Diag)) : Option ℚ :=
  match r with
  | .ok p => some p.1
  | .error _ => none

/-- A sale record of the shape the data model describes: a JSON object
whose Product and Quantity fields are scalars. -/
def saleOk : Json → Bool
  | .obj m => scalarJson (objGet m "Product") && scalarJson (objGet m "Quantity")
  | _ => false

/-- A product element of the shape the data model describes: a JSON
object whose title field is a scalar. -/
def productOk : Json → Bool
  | .obj m => scalarJson (objGet m "title")
  | _ => false

/-- Whether a product element puts an entry under key k into the
catalogue: a truthy title normalising to k together with a price that is
not None. -/
def elemIncluded (p : Json) (k : KeyN) : Bool :=
  match p with
  | .obj m =>
    (jtruthy (objGet m "title") && !(isNull (objGet m "price"))) &&
      decide (pyKeyNorm (objGet m "title") = some k)
  | _ => false

/-- The price field of a product element. -/
def priceOf : Json → Json
  | .obj m => objGet m "price"
  | _ => Json.null

/-- The price of the last element of the product list that puts an entry
under key k into the catalogue. -/
def lastIncludedPrice (ps : List Json) (k : KeyN) : Option Json :=
  match ps with
  | [] => none
  | p :: rest =>
    match lastIncludedPrice rest k with
    | some v => some v
    | none => if elemIncluded p k then some (priceOf p) else none

/-! ### Helper lemmas about the dict model -/

theorem dictGet_dictSet (d : List (KeyN × Json)) (k : KeyN) (v : Json) (j : KeyN) :
    dictGet (dictSet d k v) j = if k = j then some v else dictGet d j := by
  induction d with
  | nil => rfl
  | cons e d ih =>
    simp only [dictSet]
    by_cases he : e.1 = k
    · rw [if_pos he]
      simp only [dictGet]
      by_cases hj : k = j
      · rw [if_pos (he.trans hj), if_pos hj]
      · rw [if_neg (fun hh => hj (he.symm.trans hh)), if_neg hj,
          if_neg (fun hh => hj (he.symm.trans hh))]
    · rw [if_neg he]
      simp only [dictGet]
      by_cases hj : e.1 = j
      · rw [if_pos hj, if_neg (fun hh => he (hj.trans hh.symm)), if_pos hj]
      · rw [if_neg hj, ih]
        by_cases hkj : k = j
        · rw [if_pos hkj, if_pos hkj]
        · rw [if_neg hkj, if_neg hkj, if_neg hj]

theorem dictMem_eq_isSome (d : List (KeyN × Json)) (k : KeyN) :
    dictMem d k = (dictGet d k).isSome := by
  induction d with
  | nil => rfl
  | cons e d ih =>
    by_cases he : e.1 = k
    · simp [dictMem, dictGet, he]
    · simp [dictMem, dictGet, he, ih]

theorem pyKeyNorm_scalar (j : Json) (h : scalarJson j = true) :
    ∃ k, pyKeyNorm j = some k := by
  cases j <;> first | exact ⟨_, rfl⟩ | simp_all [scalarJson]

theorem dictGet_numCatalogue_str (c : List (String × ℚ)) (s : String) :
    dictGet (numCatalogue c) (KeyN.str s) = Option.map Json.num (specFind c s) := by
  induction c with
  | nil => rfl
  | cons e rest ih =>
    by_cases h : e.1 = s
    · simp [numCatalogue, dictGet, specFind, h]
    · simp [numCatalogue, dictGet, specFind, h, ih]

theorem dictGet_numCatalogue_not_str (c : List (String × ℚ)) (k : KeyN)
    (h : ∀ s, k ≠ KeyN.str s) :
    dictGet (numCatalogue c) k = none := by
  induction c with
  | nil => rfl
  | cons e rest ih =>
    have he : KeyN.str e.1 ≠ k := fun hh => h e.1 hh.symm
    simp [numCatalogue, dictGet, he, ih]

theorem dictGet_numCatalogue (c : List (String × ℚ)) (pn : Json) (k : KeyN)
    (hk : pyKeyNorm pn = some k) :
    dictGet (numCatalogue c) k = Option.map Json.num (specLookup c pn) := by
  cases pn with
  | str s =>
    have hks : k = KeyN.str s := by
      simp [pyKeyNorm] at hk
      exact hk.symm
    subst hks
    exact dictGet_numCatalogue_str c s
  | num q =>
    have hks : k = KeyN.num q := by
      simp [pyKeyNorm] at hk
      exact hk.symm
    subst hks
    exact dictGet_numCatalogue_not_str c _ (fun s h => KeyN.noConfusion h)
  | bool b =>
    have hks : k = KeyN.num (if b then 1 else 0) := by
      simp [pyKeyNorm] at hk
      exact hk.symm
    subst hks
    exact dictGet_numCatalogue_not_str c _ (fun s h => KeyN.noConfusion h)
  | null =>
    have hks : k = KeyN.null := by
      simp [pyKeyNorm] at hk
      exact hk.symm
    subst hks
    exact dictGet_numCatalogue_not_str c _ (fun s h => KeyN.noConfusion h)
  | arr l => simp [pyKeyNorm] at hk
  | obj m => simp [pyKeyNorm] at hk

theorem pyFloat_eq_coerced (qty : Json) (hs : scalarJson qty = true)
    (hn : isNull qty = false) :
    pyFloat qty = (match coercedQty qty with
      | some x => Except.ok x
      | none => Except.error PyExc.valueError) := by
  cases qty <;> first | rfl | simp_all [scalarJson, isNull]

theorem specContribQ_not_truthy (c : List (String × ℚ)) (pn qty : Json)
    (h : jtruthy pn = false) : specContribQ c pn qty = 0 := by
  unfold specContribQ
  rw [h]
  simp only [Bool.false_eq_true, if_false]

theorem specContribQ_no_qty (c : List (String × ℚ)) (pn qty : Json)
    (h : coercedQty qty = none) : specContribQ c pn qty = 0 := by
  unfold specContribQ
  rw [h]
  cases (if jtruthy pn then specLookup c pn else none) <;> rfl

theorem specContribQ_miss (c : List (String × ℚ)) (pn qty : Json)
    (htr : jtruthy pn = true) (h : specLookup c pn = none) :
    specContribQ c pn qty = 0 := by
  unfold specContribQ
  rw [htr, if_pos rfl, h]

theorem specContribQ_hit (c : List (String × ℚ)) (pn qty : Json) (p x : ℚ)
    (htr : jtruthy pn = true) (hl : specLookup c pn = some p)
    (hq : coercedQty qty = some x) : specContribQ c pn qty = p * x := by
  unfold specContribQ
  rw [htr, if_pos rfl, hl, hq]

/-- The contribution of one checked sale record matches the spec-side
contribution, with the record contributing only through the running
total and possibly appending diagnostics. -/
theorem processSaleChecked_spec (c : List (String × ℚ)) (t : ℚ) (ds : List Diag)
    (sale pn qty : Json) (hp : scalarJson pn = true) (hq : scalarJson qty = true) :
    ∃ extra, processSaleChecked (numCatalogue c) t ds sale pn qty =
      .ok (t + specContribQ c pn qty, ds ++ extra) := by
  unfold processSaleChecked
  by_cases htr : jtruthy pn = true
  · by_cases hnull : isNull qty = true
    · refine ⟨[Diag.invalidRecord sale], ?_⟩
      have hqn : qty = Json.null := by
        cases qty <;> simp_all [isNull]
      subst hqn
      rw [if_pos (by rw [htr, hnull]; rfl)]
      rw [specContribQ_no_qty c pn Json.null rfl, add_zero]
    · have hnf : isNull qty = false := by
        cases h : isNull qty
        · rfl
        · exact absurd h hnull
      rw [if_neg (by rw [htr, hnf]; simp)]
      rw [pyFloat_eq_coerced qty hq hnf]
      obtain ⟨k, hk⟩ := pyKeyNorm_scalar pn hp
      cases hcq : coercedQty qty with
      | none =>
        refine ⟨[Diag.invalidQuantity pn qty], ?_⟩
        rw [specContribQ_no_qty c pn qty hcq, add_zero]
      | some x =>
        simp only [hk]
        cases hsl : specLookup c pn with
        | none =>
          refine ⟨[Diag.missingProduct pn], ?_⟩
          simp only [dictGet_numCatalogue c pn k hk, hsl, Option.map_none']
          rw [specContribQ_miss c pn qty htr hsl, add_zero]
        | some p =>
          refine ⟨[], ?_⟩
          simp only [dictGet_numCatalogue c pn k hk, hsl, Option.map_some']
          simp only [pyMulFloat]
          rw [specContribQ_hit c pn qty p x htr hsl hcq, List.append_nil]
  · have htf : jtruthy pn = false := by
      cases h : jtruthy pn
      · rfl
      · exact absurd h htr
    refine ⟨[Diag.invalidRecord sale], ?_⟩
    rw [if_pos (by rw [htf]; rfl)]
    rw [specContribQ_not_truthy c pn qty htf, add_zero]

/-- On a JSON object, processSale extracts the two fields and hands over
to the checked body. -/
theorem processSale_obj (catalogue : List (KeyN × Json)) (t : ℚ)
    (ds : List Diag) (m : List (String × Json)) :
    processSale catalogue t ds (Json.obj m) =
      processSaleChecked catalogue t ds (Json.obj m)
        (objGet m "Product") (objGet m "Quantity") := rfl

/-- The aggregation loop on data-model-shaped sale records: from any
accumulator state, it returns the accumulator plus the spec-side total,
appending some diagnostics. -/
theorem compute_from_spec :
    ∀ (sales : List Json), sales.all saleOk = true →
      ∀ (c : List (String × ℚ)) (t : ℚ) (ds : List Diag), ∃ extra,
        compute_total_sales_from (numCatalogue c) t ds sales =
          .ok (t + specTotal c sales, ds ++ extra) := by
  intro sales
  induction sales with
  | nil =>
    intro _ c t ds
    refine ⟨[], ?_⟩
    rw [compute_total_sales_from]
    rw [specTotal, add_zero, List.append_nil]
  | cons sale rest ih =>
    intro h c t ds
    rw [List.all_cons, Bool.and_eq_true] at h
    obtain ⟨hs, hrest⟩ := h
    cases sale with
    | obj m =>
      rw [saleOk, Bool.and_eq_true] at hs
      obtain ⟨hp, hq⟩ := hs
      obtain ⟨extra1, h1⟩ :=
        processSaleChecked_spec c t ds (Json.obj m)
          (objGet m "Product") (objGet m "Quantity") hp hq
      obtain ⟨extra2, h2⟩ :=
        ih hrest c (t + specContribution c (Json.obj m)) (ds ++ extra1)
      refine ⟨extra1 ++ extra2, ?_⟩
      rw [compute_total_sales_from, processSale_obj, h1]
      have hcontrib : specContribQ c (objGet m "Product") (objGet m "Quantity") =
          specContribution c (Json.obj m) := rfl
      rw [hcontrib]
      show compute_total_sales_from (numCatalogue c)
          (t + specContribution c (Json.obj m)) (ds ++ extra1) rest =
        Except.ok (t + specTotal c (Json.obj m :: rest), ds ++ (extra1 ++ extra2))
      rw [h2, specTotal, add_assoc, List.append_assoc]
    | null => simp [saleOk] at hs
    | bool b => simp [saleOk] at hs
    | num q => simp [saleOk] at hs
    | str s => simp [saleOk] at hs
    | arr l => simp [saleOk] at hs

/-- The catalogue loop on data-model-shaped product elements: it
succeeds, and lookups see the last included price, falling back to the
accumulator. -/
theorem create_from_spec :
    ∀ (ps : List Json), ps.all productOk = true →
      ∀ acc : List (KeyN × Json), ∃ cat,
        create_price_catalogue_from acc ps = .ok cat ∧
        ∀ k, dictGet cat k = (match lastIncludedPrice ps k with
          | some v => some v
          | none => dictGet acc k) := by
  intro ps
  induction ps with
  | nil =>
    intro _ acc
    exact ⟨acc, rfl, fun k => rfl⟩
  | cons p rest ih =>
    intro h acc
    rw [List.all_cons, Bool.and_eq_true] at h
    obtain ⟨hp, hrest⟩ := h
    cases p with
    | obj m =>
      rw [productOk] at hp
      by_cases hcond : (jtruthy (objGet m "title") && !(isNull (objGet m "price"))) = true
      · obtain ⟨kt, hkt⟩ := pyKeyNorm_scalar _ hp
        have hstep : create_price_catalogue_from acc (Json.obj m :: rest) =
            create_price_catalogue_from (dictSet acc kt (objGet m "price")) rest := by
          simp only [create_price_catalogue_from, getField]
          rw [if_pos hcond]
          simp only [hkt]
        obtain ⟨cat, hcat, hget⟩ := ih hrest (dictSet acc kt (objGet m "price"))
        refine ⟨cat, hstep.trans hcat, fun k => ?_⟩
        rw [hget k]
        simp only [lastIncludedPrice]
        cases hlast : lastIncludedPrice rest k with
        | some v => rfl
        | none =>
          rw [dictGet_dictSet]
          have hinc : elemIncluded (Json.obj m) k = decide (kt = k) := by
            simp only [elemIncluded, hcond, Bool.true_and, hkt,
              Option.some.injEq]
          rw [hinc]
          by_cases hkk : kt = k
          · rw [if_pos hkk, hkk]
            simp [priceOf]
          · rw [if_neg hkk]
            simp [hkk]
      · have hcf : (jtruthy (objGet m "title") && !(isNull (objGet m "price"))) = false := by
          cases hb : (jtruthy (objGet m "title") && !(isNull (objGet m "price")))
          · rfl
          · exact absurd hb hcond
        have hstep : create_price_catalogue_from acc (Json.obj m :: rest) =
            create_price_catalogue_from acc rest := by
          simp only [create_price_catalogue_from, getField]
          rw [if_neg hcond]
        obtain ⟨cat, hcat, hget⟩ := ih hrest acc
        refine ⟨cat, hstep.trans hcat, fun k => ?_⟩
        rw [hget k]
        simp only [lastIncludedPrice]
        have hinc : elemIncluded (Json.obj m) k = false := by
          simp only [elemIncluded, hcf, Bool.false_and]
        rw [hinc]
        cases hlast : lastIncludedPrice rest k with
        | some v => rfl
        | none => simp
    | null => simp [productOk] at hp
    | bool b => simp [productOk] at hp
    | num q => simp [productOk] at hp
    | str s => simp [productOk] at hp
    | arr l => simp [productOk] at hp

/-- Whether some product element includes key k is the definedness of
the last included price. -/
theorem lastIncludedPrice_isSome (ps : List Json) (k : KeyN) :
    (lastIncludedPrice ps k).isSome = ps.any (fun p => elemIncluded p k) := by
  induction ps with
  | nil => rfl
  | cons p rest ih =>
    rw [List.any_cons]
    simp only [lastIncludedPrice]
    cases hlast : lastIncludedPrice rest k with
    | some v =>
      rw [hlast] at ih
      simp [← ih]
    | none =>
      rw [hlast] at ih
      cases hinc : elemIncluded p k <;> simp [hinc, ← ih]

/-! ### Claim theorems -/

/-- C1: For every catalogue of the data-model shape (string titles mapped
to numeric prices) and every list of data-model-shaped sale records (JSON
objects with scalar Product and Quantity fields), compute_total_sales
returns exactly the sum, over the sale records whose Product is a truthy
value present as a key in the catalogue and whose Quantity is non-None
and coercible to a float, of the catalogue price of the product times
the coerced quantity; every other record contributes zero to the total. -/
theorem c1_total_is_spec_sum (c : List (String × ℚ)) (sales : List Json)
    (h : sales.all saleOk = true) :
    totalResult (compute_total_sales (numCatalogue c) sales) =
      some (specTotal c sales) := by
  obtain ⟨extra, he⟩ := compute_from_spec sales h c 0 []
  rw [compute_total_sales, he]
  simp only [totalResult]
  rw [zero_add]

/-- C1 witness: the worked example of the spec, a catalogue holding Apple
at five halves and a single sale of four Apples. -/
theorem c1_witness :
    ([mkSale (Json.str "Apple") (Json.num 4)].all saleOk = true) ∧
    totalResult (compute_total_sales (numCatalogue [("Apple", 5/2)])
        [mkSale (Json.str "Apple") (Json.num 4)]) =
      some (specTotal [("Apple", 5/2)] [mkSale (Json.str "Apple") (Json.num 4)]) :=
  ⟨by decide, c1_total_is_spec_sum [("Apple", 5/2)] _ (by decide)⟩

/-- A string quantity that parses and the number it parses to lead the
checked loop body to exactly the same outcome, whenever the product is
truthy. -/
theorem processSaleChecked_qty_string (c : List (String × ℚ)) (t : ℚ)
    (ds : List Diag) (sale1 sale2 pn : Json) (s : String) (q : ℚ)
    (htr : jtruthy pn = true) (hs : pyParseFloat s = some q) :
    processSaleChecked (numCatalogue c) t ds sale1 pn (Json.str s) =
      processSaleChecked (numCatalogue c) t ds sale2 pn (Json.num q) := by
  unfold processSaleChecked
  rw [if_neg (by rw [htr]; simp [isNull]), if_neg (by rw [htr]; simp [isNull])]
  have h1 : pyFloat (Json.str s) = .ok q := by
    simp only [pyFloat, hs]
  rw [h1]
  rfl

/-- Replacing one record of a sales list by one with the same per-record
behaviour leaves the whole aggregation unchanged. -/
theorem compute_from_congr (cat : List (KeyN × Json)) (x y : Json)
    (hxy : ∀ t ds, processSale cat t ds x = processSale cat t ds y) :
    ∀ (pre post : List Json) (t : ℚ) (ds : List Diag),
      compute_total_sales_from cat t ds (pre ++ x :: post) =
        compute_total_sales_from cat t ds (pre ++ y :: post) := by
  intro pre
  induction pre with
  | nil =>
    intro post t ds
    rw [List.nil_append, List.nil_append, compute_total_sales_from,
      compute_total_sales_from, hxy t ds]
  | cons a pre ih =>
    intro post t ds
    rw [List.cons_append, List.cons_append, compute_total_sales_from,
      compute_total_sales_from]
    cases hsa : processSale cat t ds a with
    | error e => rfl
    | ok p =>
      obtain ⟨t2, ds2⟩ := p
      exact ih post t2 ds2

/-- C2: For every data-model catalogue and every sale record whose
Product is a truthy key of the catalogue, compute_total_sales adds the
same contribution when the Quantity is a numeric string as when it is
the corresponding number, wherever the record sits in the sales list. -/
theorem c2_numeric_string_quantity (c : List (String × ℚ)) (pn : Json)
    (k : KeyN) (s : String) (q : ℚ) (pre post : List Json)
    (hk : pyKeyNorm pn = some k) (hmem : dictMem (numCatalogue c) k = true)
    (htr : jtruthy pn = true) (hs : pyParseFloat s = some q) :
    compute_total_sales (numCatalogue c) (pre ++ mkSale pn (Json.str s) :: post) =
      compute_total_sales (numCatalogue c) (pre ++ mkSale pn (Json.num q) :: post) := by
  rw [compute_total_sales, compute_total_sales]
  refine compute_from_congr (numCatalogue c) _ _ (fun t ds => ?_) pre post 0 []
  show processSaleChecked (numCatalogue c) t ds (mkSale pn (Json.str s)) pn (Json.str s) =
    processSaleChecked (numCatalogue c) t ds (mkSale pn (Json.num q)) pn (Json.num q)
  exact processSaleChecked_qty_string c t ds _ _ pn s q htr hs

/-- C2 witness: quantity "3" versus quantity 3 for product A priced 2. -/
theorem c2_witness :
    compute_total_sales (numCatalogue [("A", 2)])
        [mkSale (Json.str "A") (Json.str "3")] =
      compute_total_sales (numCatalogue [("A", 2)])
        [mkSale (Json.str "A") (Json.num 3)] := by
  have h := c2_numeric_string_quantity [("A", 2)] (Json.str "A") (KeyN.str "A")
    "3" 3 [] [] rfl (by decide) (by decide) (by decide)
  simpa using h

/-- C5 counterexample: a sale record whose Quantity is a JSON array makes
float raise TypeError, which the loop catches nowhere (only ValueError is
handled), so compute_total_sales raises instead of completing. -/
theorem c5_counterexample :
    compute_total_sales [] [mkSale (Json.str "A") (Json.arr [])] =
      .error PyExc.typeError := rfl

/-- C5 amended: for every data-model catalogue and every list of sale
records that are JSON objects with scalar Product and Quantity values,
compute_total_sales completes without raising and returns a total,
0 when the list is empty; records whose fields are arrays or objects, or
that are not objects at all, can instead raise an uncaught TypeError or
AttributeError. -/
theorem c5_no_raise_on_flat_records (c : List (String × ℚ)) (sales : List Json)
    (h : sales.all saleOk = true) :
    (∃ t ds, compute_total_sales (numCatalogue c) sales = .ok (t, ds)) ∧
    compute_total_sales (numCatalogue c) [] = .ok (0, []) := by
  obtain ⟨extra, he⟩ := compute_from_spec sales h c 0 []
  refine ⟨⟨0 + specTotal c sales, [] ++ extra, ?_⟩, rfl⟩
  rw [compute_total_sales]
  exact he

/-- C5 witness: a one-record sales list aggregates without raising. -/
theorem c5_witness :
    ([mkSale (Json.str "B") (Json.num 1)].all saleOk = true) ∧
    compute_total_sales (numCatalogue [("A", 2)]) [] = .ok (0, []) :=
  ⟨by decide,
    (c5_no_raise_on_flat_records [("A", 2)] [mkSale (Json.str "B") (Json.num 1)]
      (by decide)).2⟩

/-- C9: the missing-field check tests Quantity against None only, not
falsiness: with a truthy string product present in a data-model
catalogue, a Quantity of 0 or "0" is well-formed, contributes exactly
zero and produces no diagnostic, while an empty-string Product is
rejected with a data-error diagnostic naming the record. -/
theorem c9_zero_quantity_kept (c : List (String × ℚ)) (p : String) (t : ℚ)
    (ds : List Diag) (hp : p ≠ "")
    (hmem : dictMem (numCatalogue c) (KeyN.str p) = true) :
    processSale (numCatalogue c) t ds (mkSale (Json.str p) (Json.num 0)) =
      .ok (t, ds) ∧
    processSale (numCatalogue c) t ds (mkSale (Json.str p) (Json.str "0")) =
      .ok (t, ds) ∧
    ∀ qty, processSale (numCatalogue c) t ds (mkSale (Json.str "") qty) =
      .ok (t, ds ++ [Diag.invalidRecord (mkSale (Json.str "") qty)]) := by
  rw [dictMem_eq_isSome, dictGet_numCatalogue_str] at hmem
  have hx : ∃ x, specFind c p = some x := by
    cases hf : specFind c p
    · rw [hf] at hmem
      simp at hmem
    · exact ⟨_, rfl⟩
  obtain ⟨x, hfx⟩ := hx
  have hget : dictGet (numCatalogue c) (KeyN.str p) = some (Json.num x) := by
    rw [dictGet_numCatalogue_str, hfx]
    rfl
  have htr : jtruthy (Json.str p) = true := by
    simp [jtruthy, hp]
  refine ⟨?_, ?_, fun qty => ?_⟩
  · show processSaleChecked (numCatalogue c) t ds
      (mkSale (Json.str p) (Json.num 0)) (Json.str p) (Json.num 0) = .ok (t, ds)
    unfold processSaleChecked
    rw [if_neg (by rw [htr]; simp [isNull])]
    simp only [pyFloat, pyKeyNorm, hget, pyMulFloat]
    rw [mul_zero, add_zero]
  · show processSaleChecked (numCatalogue c) t ds
      (mkSale (Json.str p) (Json.str "0")) (Json.str p) (Json.str "0") = .ok (t, ds)
    unfold processSaleChecked
    rw [if_neg (by rw [htr]; simp [isNull])]
    have h0 : pyParseFloat "0" = some 0 := by decide
    simp only [pyFloat, h0, pyKeyNorm, hget, pyMulFloat]
    rw [mul_zero, add_zero]
  · show processSaleChecked (numCatalogue c) t ds
      (mkSale (Json.str "") qty) (Json.str "") qty =
      .ok (t, ds ++ [Diag.invalidRecord (mkSale (Json.str "") qty)])
    unfold processSaleChecked
    rw [if_pos (by simp [jtruthy])]

/-- C9 witness: product A priced 2, quantity 0 contributes nothing and
prints nothing; the empty product is rejected. -/
theorem c9_witness :
    ("A" : String) ≠ "" ∧
    dictMem (numCatalogue [("A", 2)]) (KeyN.str "A") = true ∧
    processSale (numCatalogue [("A", 2)]) 0 []
      (mkSale (Json.str "A") (Json.num 0)) = .ok (0, []) :=
  ⟨by decide, by decide,
    (c9_zero_quantity_kept [("A", 2)] "A" 0 [] (by decide) (by decide)).1⟩

/-- C3: For every product list of data-model-shaped elements (JSON
objects with scalar title values), create_price_catalogue raises no
error and includes an entry exactly for those elements having a truthy
title and a non-None price: a price of 0 is retained, an absent price or
a missing or falsy title excludes the element. -/
theorem c3_inclusion_exactly (ps : List Json) (h : ps.all productOk = true) :
    ∃ cat, create_price_catalogue ps = .ok cat ∧
      ∀ k, dictMem cat k = ps.any (fun p => elemIncluded p k) := by
  obtain ⟨cat, hcat, hget⟩ := create_from_spec ps h []
  refine ⟨cat, hcat, fun k => ?_⟩
  rw [dictMem_eq_isSome, hget k, ← lastIncludedPrice_isSome]
  cases lastIncludedPrice ps k <;> rfl

/-- C3 witness: a zero price is retained, a falsy title, a missing price
and a null price are silently excluded, and nothing is raised. -/
theorem c3_witness :
    ([Json.obj [("title", Json.str "A"), ("price", Json.num 0)],
      Json.obj [("title", Json.str ""), ("price", Json.num 1)],
      Json.obj [("title", Json.str "B")],
      Json.obj [("title", Json.str "C"), ("price", Json.null)]].all productOk
      = true) ∧
    create_price_catalogue
      [Json.obj [("title", Json.str "A"), ("price", Json.num 0)],
       Json.obj [("title", Json.str ""), ("price", Json.num 1)],
       Json.obj [("title", Json.str "B")],
       Json.obj [("title", Json.str "C"), ("price", Json.null)]] =
      .ok [(KeyN.str "A", Json.num 0)] ∧
    dictMem [(KeyN.str "A", Json.num 0)] (KeyN.str "A") = true ∧
    dictMem [(KeyN.str "A", Json.num 0)] (KeyN.str "") = false ∧
    dictMem [(KeyN.str "A", Json.num 0)] (KeyN.str "B") = false ∧
    dictMem [(KeyN.str "A", Json.num 0)] (KeyN.str "C") = false := by
  obtain ⟨cat, hc, hm⟩ := c3_inclusion_exactly
    [Json.obj [("title", Json.str "A"), ("price", Json.num 0)],
     Json.obj [("title", Json.str ""), ("price", Json.num 1)],
     Json.obj [("title", Json.str "B")],
     Json.obj [("title", Json.str "C"), ("price", Json.null)]] (by decide)
  have hc2 : cat = [(KeyN.str "A", Json.num 0)] :=
    Except.ok.inj (hc.symm.trans rfl)
  subst hc2
  exact ⟨by decide, hc, (hm (KeyN.str "A")).trans (by decide),
    (hm (KeyN.str "")).trans (by decide),
    (hm (KeyN.str "B")).trans (by decide),
    (hm (KeyN.str "C")).trans (by decide)⟩

/-- C4: For every product list of data-model-shaped elements, the
catalogue built by create_price_catalogue maps every key to the price of
the last element in input order that is valid (truthy title, non-None
price) and carries that title; in particular a later duplicate title
overwrites an earlier one. -/
theorem c4_last_write_wins (ps : List Json) (cat : List (KeyN × Json))
    (h : ps.all productOk = true) (hc : create_price_catalogue ps = .ok cat)
    (k : KeyN) :
    dictGet cat k = lastIncludedPrice ps k := by
  obtain ⟨cat2, hc2, hget⟩ := create_from_spec ps h []
  have he : cat2 = cat := Except.ok.inj (hc2.symm.trans hc)
  subst he
  rw [hget k]
  cases lastIncludedPrice ps k <;> rfl

/-- C4 witness: the spec example, X at price 1 then X at price 5; the
lookup for X yields 5. -/
theorem c4_witness :
    ([Json.obj [("title", Json.str "X"), ("price", Json.num 1)],
      Json.obj [("title", Json.str "X"), ("price", Json.num 5)]].all productOk
      = true) ∧
    create_price_catalogue
      [Json.obj [("title", Json.str "X"), ("price", Json.num 1)],
       Json.obj [("title", Json.str "X"), ("price", Json.num 5)]] =
      .ok [(KeyN.str "X", Json.num 5)] ∧
    dictGet [(KeyN.str "X", Json.num 5)] (KeyN.str "X") = some (Json.num 5) :=
  ⟨by decide, rfl,
    (c4_last_write_wins
      [Json.obj [("title", Json.str "X"), ("price", Json.num 1)],
       Json.obj [("title", Json.str "X"), ("price", Json.num 5)]]
      [(KeyN.str "X", Json.num 5)] (by decide) rfl (KeyN.str "X")).trans (by rfl)⟩

/-- On filesystems whose every outcome is handled, the full loader never
propagates and agrees with load_json_file. -/
theorem load_json_file_full_handled (fs : String → ReadOutcome) (fn : String) :
    load_json_file_full (fun n => ReadOutcomeFull.handled (fs n)) fn =
      .ok (load_json_file fs fn) := by
  cases h : fs fn <;> simp [load_json_file_full, load_json_file, h]

/-- C6 counterexample: a file whose read raises an exception outside the
classes the except clauses name (such as UnicodeDecodeError on non-UTF-8
content, a ValueError that is not a JSONDecodeError) makes load_json_file
propagate that exception instead of returning the absent sentinel with a
diagnostic. -/
theorem c6_counterexample :
    load_json_file_full (fun _ => ReadOutcomeFull.uncaught PyExc.valueError)
      "data.json" = .error PyExc.valueError := rfl

/-- C6 amended: for every filesystem and file path, load_json_file
succeeds and returns the parsed value with no diagnostic, or returns the
absent sentinel None with exactly one diagnostic line on the handled
failure classes (file not found, invalid JSON, another OSError or
TypeError during the read), or, when the read raises an exception
outside the handled classes (for example UnicodeDecodeError on non-UTF-8
file content), propagates that exception to the caller. -/
theorem c6_loader_handled_failures (fs : String → ReadOutcomeFull)
    (filename : String) :
    (∃ d, fs filename = ReadOutcomeFull.handled (ReadOutcome.ok d) ∧
      load_json_file_full fs filename = .ok (some d, [])) ∨
    (∃ r, fs filename = ReadOutcomeFull.handled r ∧
      (∀ d, r ≠ ReadOutcome.ok d) ∧
      ∃ ds, load_json_file_full fs filename = .ok (none, ds) ∧
        ds.length = 1) ∨
    (∃ e, fs filename = ReadOutcomeFull.uncaught e ∧
      load_json_file_full fs filename = .error e) := by
  cases h : fs filename with
  | handled r =>
    cases r with
    | ok d => exact Or.inl ⟨d, rfl, by simp [load_json_file_full, h]⟩
    | fileNotFound =>
      exact Or.inr (Or.inl ⟨ReadOutcome.fileNotFound, rfl,
        fun d hd => ReadOutcome.noConfusion hd,
        [Diag.fileNotFound filename], by simp [load_json_file_full, h], rfl⟩)
    | jsonDecodeError =>
      exact Or.inr (Or.inl ⟨ReadOutcome.jsonDecodeError, rfl,
        fun d hd => ReadOutcome.noConfusion hd,
        [Diag.invalidJson filename], by simp [load_json_file_full, h], rfl⟩)
    | osError =>
      exact Or.inr (Or.inl ⟨ReadOutcome.osError, rfl,
        fun d hd => ReadOutcome.noConfusion hd,
        [Diag.readError filename], by simp [load_json_file_full, h], rfl⟩)
    | typeError =>
      exact Or.inr (Or.inl ⟨ReadOutcome.typeError, rfl,
        fun d hd => ReadOutcome.noConfusion hd,
        [Diag.readError filename], by simp [load_json_file_full, h], rfl⟩)
  | uncaught e =>
    exact Or.inr (Or.inr ⟨e, rfl, by simp [load_json_file_full, h]⟩)

/-- Diagnostics printed by the loader are loader diagnostics, never the
report line. -/
theorem load_diag_not_report (fs : String → ReadOutcome) (fn : String)
    (d : Diag) (hd : d ∈ (load_json_file fs fn).2) :
    ∀ t, d ≠ Diag.report t := by
  cases h : fs fn <;> simp [load_json_file, h] at hd <;> subst hd <;>
    intro t hcontra <;> cases hcontra

/-- C7 counterexample: with three arguments and two files that load
fine, a sale record whose Quantity is a JSON array crashes the
aggregation with an uncaught TypeError, so the process exits 1 in a run
where the claim promises exit code 0. -/
theorem c7_counterexample :
    ((["computeSales.py", "p.json", "s.json"] : List String).length = 3) ∧
    (load_json_file
      (fun fn => if fn = "p.json" then ReadOutcome.ok (Json.arr [])
        else ReadOutcome.ok (Json.arr [mkSale (Json.str "A") (Json.arr [])]))
      "p.json").1 = some (Json.arr []) ∧
    (load_json_file
      (fun fn => if fn = "p.json" then ReadOutcome.ok (Json.arr [])
        else ReadOutcome.ok (Json.arr [mkSale (Json.str "A") (Json.arr [])]))
      "s.json").1 = some (Json.arr [mkSale (Json.str "A") (Json.arr [])]) ∧
    (main ["computeSales.py", "p.json", "s.json"]
      (fun fn => if fn = "p.json" then ReadOutcome.ok (Json.arr [])
        else ReadOutcome.ok (Json.arr [mkSale (Json.str "A") (Json.arr [])]))
      true).exitCode = 1 :=
  ⟨rfl, rfl, rfl, rfl⟩

/-- C7 amended: the process exits 1 exactly when the argument count is
not two (after printing only the usage message and touching no file),
when either input file fails to load, or when the catalogue construction
or aggregation raises an uncaught exception; in every other run it exits
0, even if writing the result file fails or every sale record was
invalid. -/
theorem c7_exit_codes (argv : List String) (fs : String → ReadOutcome)
    (w : Bool) :
    (argv.length ≠ 3 → main argv fs w = ⟨1, [Event.print Diag.usage]⟩) ∧
    (∀ g p s, argv = [g, p, s] →
      (((load_json_file fs p).1 = none ∨ (load_json_file fs s).1 = none) →
        (main argv fs w).exitCode = 1) ∧
      (∀ jp js, (load_json_file fs p).1 = some jp →
        (load_json_file fs s).1 = some js →
        (∀ e, pipeline jp js = .error e → (main argv fs w).exitCode = 1) ∧
        (∀ t ds, pipeline jp js = .ok (t, ds) →
          (main argv fs w).exitCode = 0))) := by
  constructor
  · intro hlen
    match argv with
    | [] => rfl
    | [_] => rfl
    | [_, _] => rfl
    | [_, _, _] => exact absurd rfl hlen
    | _ :: _ :: _ :: _ :: _ => rfl
  · intro g p s hargv
    subst hargv
    constructor
    · intro hnone
      rcases hnone with hp | hs
      · simp [main, hp]
      · rcases hp2 : (load_json_file fs p).1 with _ | jp
        · simp [main, hp2]
        · simp [main, hp2, hs]
    · intro jp js hjp hjs
      constructor
      · intro e he
        simp [main, hjp, hjs, he]
      · intro t ds hok
        cases w <;> simp [main, hjp, hjs, hok]

/-- C7 witness: wrong argument count exits 1 with only the usage
message; a clean run with empty inputs exits 0 even when the result file
cannot be written. -/
theorem c7_witness :
    main ["computeSales.py"] (fun _ => ReadOutcome.fileNotFound) true =
      ⟨1, [Event.print Diag.usage]⟩ ∧
    (main ["computeSales.py", "p.json", "s.json"]
      (fun _ => ReadOutcome.ok (Json.arr [])) false).exitCode = 0 :=
  ⟨(c7_exit_codes ["computeSales.py"] (fun _ => ReadOutcome.fileNotFound)
      true).1 (by decide),
    (((c7_exit_codes ["computeSales.py", "p.json", "s.json"]
      (fun _ => ReadOutcome.ok (Json.arr [])) false).2
      "computeSales.py" "p.json" "s.json" rfl).2
      (Json.arr []) (Json.arr []) rfl rfl).2 0 [] rfl⟩

/-- C8: whenever either loader returns the absent sentinel (in
particular when the price-catalogue file is missing), the run exits with
code 1, writes nothing to SalesResults.txt, and prints no report; only
the two loads and their diagnostics happen. -/
theorem c8_no_write_on_load_failure (fs : String → ReadOutcome) (w : Bool)
    (g p s : String)
    (h : (load_json_file fs p).1 = none ∨ (load_json_file fs s).1 = none) :
    (main [g, p, s] fs w).exitCode = 1 ∧
    (∀ t, Event.writeResults t ∉ (main [g, p, s] fs w).events) ∧
    (∀ t, Event.print (Diag.report t) ∉ (main [g, p, s] fs w).events) := by
  have hmain : main [g, p, s] fs w = ⟨1,
      (Event.loadFile p :: (load_json_file fs p).2.map Event.print) ++
      (Event.loadFile s :: (load_json_file fs s).2.map Event.print)⟩ := by
    rcases h with hp | hs
    · simp [main, hp]
    · rcases hp2 : (load_json_file fs p).1 with _ | jp
      · simp [main, hp2]
      · simp [main, hp2, hs]
  rw [hmain]
  refine ⟨rfl, fun t hmem => ?_, fun t hmem => ?_⟩
  · simp only [List.mem_append, List.mem_cons, List.mem_map] at hmem
    rcases hmem with (h1 | ⟨d, _, h2⟩) | (h3 | ⟨d, _, h4⟩)
    · cases h1
    · cases h2
    · cases h3
    · cases h4
  · simp only [List.mem_append, List.mem_cons, List.mem_map] at hmem
    rcases hmem with (h1 | ⟨d, hd, h2⟩) | (h3 | ⟨d, hd, h4⟩)
    · cases h1
    · exact load_diag_not_report fs p d hd t (by injection h2)
    · cases h3
    · exact load_diag_not_report fs s d hd t (by injection h4)

/-- C8 witness: a missing price file exits 1 and writes nothing. -/
theorem c8_witness :
    (load_json_file (fun _ => ReadOutcome.fileNotFound) "p.json").1 = none ∧
    (main ["m", "p.json", "s.json"] (fun _ => ReadOutcome.fileNotFound)
      true).exitCode = 1 ∧
    Event.writeResults 0 ∉
      (main ["m", "p.json", "s.json"] (fun _ => ReadOutcome.fileNotFound)
        true).events :=
  ⟨rfl,
    (c8_no_write_on_load_failure (fun _ => ReadOutcome.fileNotFound) true
      "m" "p.json" "s.json" (Or.inl rfl)).1,
    (c8_no_write_on_load_failure (fun _ => ReadOutcome.fileNotFound) true
      "m" "p.json" "s.json" (Or.inl rfl)).2.1 0⟩

/-- C10: in every run with exactly two positional arguments, main loads
both files unconditionally before checking either result: the event
trace starts with the price-file load and its diagnostics followed by
the sales-file load and its diagnostics, whatever the outcomes; and if
the price load failed, the run ends right there with exit code 1. -/
theorem c10_both_loads_unconditional (argv : List String)
    (fs : String → ReadOutcome) (w : Bool) (g p s : String)
    (h : argv = [g, p, s]) :
    ∃ rest, (main argv fs w).events =
      (Event.loadFile p :: (load_json_file fs p).2.map Event.print) ++
      (Event.loadFile s :: (load_json_file fs s).2.map Event.print) ++ rest ∧
      ((load_json_file fs p).1 = none →
        (main argv fs w).exitCode = 1 ∧ rest = []) := by
  subst h
  rcases hp : (load_json_file fs p).1 with _ | jp
  · refine ⟨[], ?_, fun _ => ⟨?_, rfl⟩⟩
    · simp [main, hp]
    · simp [main, hp]
  · rcases hs : (load_json_file fs s).1 with _ | js
    · refine ⟨[], ?_, fun hcontra => ?_⟩
      · simp [main, hp, hs]
      · cases hcontra
    · cases hpl : pipeline jp js with
      | error e =>
        refine ⟨[], ?_, fun hcontra => ?_⟩
        · simp [main, hp, hs, hpl]
        · cases hcontra
      | ok pr =>
        obtain ⟨t, ds⟩ := pr
        cases w with
        | false =>
          refine ⟨ds.map Event.print ++ [Event.print (Diag.report t)] ++
            [Event.print Diag.writeError], ?_, fun hcontra => ?_⟩
          · simp [main, hp, hs, hpl]
          · cases hcontra
        | true =>
          refine ⟨ds.map Event.print ++ [Event.print (Diag.report t)] ++
            [Event.writeResults t], ?_, fun hcontra => ?_⟩
          · simp [main, hp, hs, hpl]
          · cases hcontra

/-- C10 witness: with both files missing, the trace still shows both
loads with their diagnostics, then the run exits 1. -/
theorem c10_witness :
    (main ["m", "p.json", "s.json"] (fun _ => ReadOutcome.fileNotFound)
      true).events =
      [Event.loadFile "p.json", Event.print (Diag.fileNotFound "p.json"),
       Event.loadFile "s.json", Event.print (Diag.fileNotFound "s.json")] ∧
    (main ["m", "p.json", "s.json"] (fun _ => ReadOutcome.fileNotFound)
      true).exitCode = 1 := by
  obtain ⟨rest, hev, himp⟩ := c10_both_loads_unconditional
    ["m", "p.json", "s.json"] (fun _ => ReadOutcome.fileNotFound) true
    "m" "p.json" "s.json" rfl
  obtain ⟨hexit, hrest⟩ := himp rfl
  subst hrest
  refine ⟨?_, hexit⟩
  rw [hev]
  rfl

end ComputeSales
